import Mathlib

/-!
# Verification of `generate_transactions.py` (BitBlasting, A1/q1)

Shallow embedding of the synthetic transactional-dataset generator and proofs
of the frozen claims about it.

Modelling conventions:

* Python's seeded `random.Random` (a Mersenne-Twister stream) is modelled as a
  deterministic stream of naturals `g : Nat → Nat` together with a cursor.
  Each primitive draw consumes one stream value.  Theorems that must hold
  "regardless of the random draws" are universally quantified over the stream,
  which ranges over every draw sequence the real generator could produce.
* `rng.randint(a, b)` returns `a + v % (b + 1 - a)`, always inside `[a, b]`
  (the source never calls it with an empty range; the guard keeps it total).
* `rng.random()` returns a float in `[0, 1)` that is only ever compared against
  the thresholds `0.10` and `0.70`; it is modelled as an integer in `[0, 1000)`
  compared against `100` and `700`, which exposes exactly the same three-way
  branch to the rest of the program.
* `rng.choices(pop, weights, k=1)[0]` is a weighted choice over `pop`.  All
  weight vectors in the source are strictly positive, so every element of the
  population is reachable; the model lets the stream pick the index and keeps
  the weight list as an (uninspected) argument, exactly as faithful for every
  property in the claims, none of which concerns the distribution itself.
* `rng.sample(pop, k)` (k distinct positions, without replacement) is modelled
  by repeatedly letting the stream pick a remaining position.
* Python `float` weights: the cluster weights `1.0 / (i + 1)` are modelled as
  the exact rationals `1 / (i + 1)`; the item weights `1.0 / (i + 1) ** 1.1`
  are irrational and are carried symbolically as the pair (base `i + 1`,
  exponent `11/10`).  Neither value is inspected by any modelled operation.
* The Python sets `seen` and `chosen` are modelled as duplicate-free lists
  (insertion skips elements already present); only membership and cardinality
  of these sets are ever observed by the source.
* The synthesizer's fill loop `while len(chosen) < length: ...` has no bound
  in the source; it is embedded with explicit fuel, `none` meaning that the
  loop has not finished within `fuel` iterations.  A run diverges iff the
  result is `none` for every fuel.
-/

/-- Deterministic model of a `random.Random` instance: a stream of naturals
and a cursor into it. -/
structure Rng where
  g : Nat → Nat
  idx : Nat

/-- Consume one value from the stream. -/
def Rng.next (r : Rng) : Nat × Rng := (r.g r.idx, ⟨r.g, r.idx + 1⟩)

/-- `rng.randint(lo, hi)`: uniform integer in `[lo, hi]`, both ends included.
The source only calls it with `lo ≤ hi`; the `hi < lo` guard (returning `lo`)
merely keeps the model total where Python would raise. -/
def randint (lo hi : Nat) (r : Rng) : Nat × Rng :=
  let p := r.next
  (if hi < lo then lo else lo + p.1 % (hi + 1 - lo), p.2)

/-- `rng.random()`, used only for the comparisons `r < 0.10` and `r < 0.70`
in `choose_length`: modelled as an integer in `[0, 1000)` compared against
`100` and `700`. -/
def randfrac (r : Rng) : Nat × Rng :=
  let p := r.next
  (p.1 % 1000, p.2)

/-- `rng.choices(pop, weights=w, k=1)[0]`: one weighted draw from `pop`.
Every weight used by the source is strictly positive, so each element is
reachable; the stream selects the index and the weight list is carried but
not inspected.  `none` models the exception Python raises on an empty
population (never reached by the source). -/
def choicesOne {α β : Type} (pop : List α) (weights : List β) (r : Rng) :
    Option (α × Rng) :=
  match pop, weights with
  | [], _ => none
  | x :: xs, _ =>
    let p := r.next
    some ((x :: xs).get ⟨p.1 % (x :: xs).length, Nat.mod_lt _ (Nat.succ_pos xs.length)⟩, p.2)

/-- `rng.sample(pop, k)`: `k` elements drawn from distinct positions of `pop`
without replacement.  The stream picks a remaining position at each step.
`none` models the `ValueError` Python raises when `k > len(pop)`. -/
def sample {α : Type} : (pop : List α) → (k : Nat) → Rng → Option (List α × Rng)
  | _, 0, r => some ([], r)
  | [], _ + 1, _ => none
  | x :: xs, k + 1, r =>
    let p := r.next
    let i := p.1 % (x :: xs).length
    let picked := (x :: xs).get ⟨i, Nat.mod_lt _ (Nat.succ_pos xs.length)⟩
    match sample ((x :: xs).eraseIdx i) k p.2 with
    | none => none
    | some (rest, r2) => some (picked :: rest, r2)

/-- Python `set.add` on the duplicate-free-list model of a set. -/
def setAdd (s : List String) (x : String) : List String :=
  if x ∈ s then s else s ++ [x]

/-- `text.replace(",", " ")`: the pattern is the single character `,`, so the
replacement is a map over the characters. -/
def commaToSpace (s : String) : String :=
  String.mk (s.data.map (fun c => if c = ',' then ' ' else c))

/-- Python's no-argument `str.split()`: split on runs of whitespace, dropping
empty tokens, rendered structurally over the character list; `acc` holds the
characters of the word currently being read, in reverse. -/
def splitWsGo : List Char → List Char → List String
  | [], acc => if acc.isEmpty then [] else [String.mk acc.reverse]
  | c :: cs, acc =>
    if c.isWhitespace then
      if acc.isEmpty then splitWsGo cs []
      else String.mk acc.reverse :: splitWsGo cs []
    else splitWsGo cs (c :: acc)

/-- `text.replace(",", " ").split()`: normalise commas to spaces, then split
on whitespace runs (Python's no-argument `split` never returns empty
tokens). -/
def tokenize (s : String) : List String :=
  splitWsGo (commaToSpace s).data []

/-- The token-deduplication loop of `load_items` (`for t in tokens: if t not
in seen: seen.add(t); items.append(t)`), rendered as recursion over the
tokens with the `seen` set as an explicit accumulator. -/
def dedupGo : List String → List String → List String
  | [], _ => []
  | t :: ts, seen => if t ∈ seen then dedupGo ts seen else t :: dedupGo ts (t :: seen)

/-- `load_items(spec)`.  The filesystem probe `Path(spec).exists()` /
`path.read_text()` is modelled by the oracle `fs`: `fs spec = some text` when
the path exists with contents `text`, and `none` when it does not. -/
def load_items (fs : String → Option String) (spec : String) : List String :=
  match fs spec with
  | some text => dedupGo (tokenize text) []
  | none => dedupGo (tokenize spec) []

/-- The body of the `for _ in range(k)` loop of `build_clusters`: draw a size
`sz = rng.randint(3, max_sz)` with `max_sz = min(12, n)` bumped up to `3` when
smaller, then `rng.sample(items, sz)`. -/
def buildClustersGo (items : List String) (n : Nat) :
    Nat → Rng → Option (List (List String) × Rng)
  | 0, r => some ([], r)
  | k + 1, r =>
    let max_sz := if min 12 n < 3 then 3 else min 12 n
    let p := randint 3 max_sz r
    match sample items p.1 p.2 with
    | none => none
    | some (c, r2) =>
      match buildClustersGo items n k r2 with
      | none => none
      | some (cs, r3) => some (c :: cs, r3)

/-- `build_clusters(items, rng)`: no clusters when `n < 4`; otherwise
`k = max(3, min(10, n // 5))` clusters, each `rng.sample(items, sz)` for a
fresh `sz`, with weights `[1.0 / (i + 1) for i in range(len(clusters))]`
(floats modelled as exact rationals). -/
def build_clusters (items : List String) (r : Rng) :
    Option ((List (List String) × List Rat) × Rng) :=
  let n := items.length
  if n < 4 then some (([], []), r)
  else
    let k := max 3 (min 10 (n / 5))
    match buildClustersGo items n k r with
    | none => none
    | some (cs, r2) =>
      some ((cs, (List.range cs.length).map (fun i => 1 / (((i + 1 : Nat)) : Rat))), r2)

/-- `choose_length(n_items, rng)`: `max(2, n)` when `n ≤ 5`; otherwise a
three-way branch on `rng.random()` picking `min(n, randint(3,5))`,
`min(n, randint(6,12))` or `min(n, randint(12,20))`. -/
def choose_length (n_items : Nat) (r : Rng) : Nat × Rng :=
  if n_items ≤ 5 then (max 2 n_items, r)
  else
    let p := randfrac r
    if p.1 < 100 then
      let q := randint 3 5 p.2
      (min n_items q.1, q.2)
    else if p.1 < 700 then
      let q := randint 6 12 p.2
      (min n_items q.1, q.2)
    else
      let q := randint 12 20 p.2
      (min n_items q.1, q.2)

/-- The cluster-seeding block of `generate_transaction` (`chosen = set()`
followed by `if clusters: ...`): pick one weighted cluster, pick
`pick ∈ [min_pick, max_pick]`, and take `rng.sample(cluster, pick)` as the
initial `chosen` set. -/
def seedChosen (clusters : List (List String)) (cw : List Rat) (len : Nat)
    (r : Rng) : Option (List String × Rng) :=
  match clusters with
  | [] => some ([], r)
  | _ :: _ =>
    match choicesOne clusters cw r with
    | none => none
    | some (cluster, r1) =>
      let min_pick := if 2 ≤ cluster.length then 2 else 1
      let max_pick := max min_pick (min cluster.length (max 2 (len / 2)))
      let p := randint min_pick max_pick r1
      match sample cluster p.1 p.2 with
      | none => none
      | some (seedItems, r3) => some (seedItems.foldl setAdd [], r3)

/-- The fill loop `while len(chosen) < length: chosen.add(choices(items,
item_weights)[0])`.  The loop is unbounded in the source; `fuel` counts the
iterations the model is willing to run, and `none` means the loop has not
finished within `fuel` iterations. -/
def fillLoop (items : List String) (iw : List (Rat × Rat)) (len : Nat) :
    Nat → List String → Rng → Option (List String × Rng)
  | fuel, chosen, r =>
    if len ≤ chosen.length then some (chosen, r)
    else
      match fuel with
      | 0 => none
      | f + 1 =>
        match choicesOne items iw r with
        | none => none
        | some (item, r1) => fillLoop items iw len f (setAdd chosen item) r1

/-- `generate_transaction(items, clusters, cluster_weights, item_weights,
rng)`: choose a target length, optionally seed from one cluster, fill to the
target, and return `[it for it in items if it in chosen]`. -/
def generate_transaction (fuel : Nat) (items : List String)
    (clusters : List (List String)) (cluster_weights : List Rat)
    (item_weights : List (Rat × Rat)) (r : Rng) : Option (List String × Rng) :=
  let n := items.length
  let pl := choose_length n r
  match seedChosen clusters cluster_weights pl.1 pl.2 with
  | none => none
  | some (chosen, r2) =>
    match fillLoop items item_weights pl.1 fuel chosen r2 with
    | none => none
    | some (chosen2, r3) =>
      some (items.filter (fun it => decide (it ∈ chosen2)), r3)

/-- `item_weights = [1.0 / ((i + 1) ** alpha) for i in range(len(items))]`
with `alpha = 1.1`.  The value `1/(i+1)^1.1` is irrational, so the weight is
carried symbolically as the pair (base `i + 1`, exponent `11/10`); no modelled
operation inspects it (see `choicesOne`). -/
def itemWeights (n : Nat) : List (Rat × Rat) :=
  (List.range n).map (fun i => ((((i + 1 : Nat)) : Rat), 11 / 10))

/-- `"Error: <num_transactions> must be an integer."` -/
def intErrMsg : String := "Error: <num_transactions> must be an integer."

/-- `"Error: universal_itemset is empty."` -/
def emptyErrMsg : String := "Error: universal_itemset is empty."

/-- The shortfall warning printed by `main`. -/
def shortfallMsg (k : Nat) (numTx : Int) : String :=
  "Warning: generated " ++ toString k ++ " unique transactions out of requested "
    ++ toString numTx ++ "."

/-- The success message printed by `main`. -/
def wroteMsg (k : Nat) (outPath : String) : String :=
  "Wrote " ++ toString k ++ " transactions to " ++ outPath

/-- The bytes written to the output file: one line per transaction, items
space-joined, each line terminated by a newline. -/
def serialize (txs : List (List String)) : String :=
  String.join (txs.map (fun tx => String.intercalate " " tx ++ "\n"))

/-- The digit run of a decimal literal: `none` as soon as a non-digit
appears. -/
def parseDigits : List Char → Nat → Option Nat
  | [], acc => some acc
  | c :: cs, acc =>
    if c.isDigit then parseDigits cs (acc * 10 + (c.toNat - 48)) else none

/-- `int(sys.argv[2])`: an optional sign followed by decimal digits.
Python's `int` additionally strips surrounding whitespace and accepts
underscore separators; the two agree on every plain decimal form and both
reject `"abc"`. -/
def pyInt (s : String) : Option Int :=
  match s.data with
  | [] => none
  | '-' :: rest =>
    match rest with
    | [] => none
    | _ => (parseDigits rest 0).map (fun n => -(n : Int))
  | '+' :: rest =>
    match rest with
    | [] => none
    | _ => (parseDigits rest 0).map (fun n => (n : Int))
  | l => (parseDigits l 0).map (fun n => (n : Int))

/-- Observable outcome of one process run: exit code, printed messages in
order, contents of the output file (`none` if no file was created), the
in-memory `transactions` list and the final `attempts` counter. -/
structure RunOutcome where
  exitCode : Nat
  stdout : List String
  file : Option String
  txs : List (List String)
  attempts : Int
deriving DecidableEq, Repr

/-- The generation loop of `main`:
`while len(transactions) < num_tx and attempts < max_attempts: attempts += 1;
tx = generate_transaction(...); if tuple(tx) in seen: continue;
seen.add(...); transactions.append(tx)`.

The `Int` counter comparison `attempts < max_attempts` is compiled into the
structural budget `budget = (max_attempts - attempts).toNat`: the budget is
zero exactly when `attempts < max_attempts` fails, and each iteration spends
one unit while incrementing `attempts`. -/
def mainLoop (fuel : Nat) (items : List String) (clusters : List (List String))
    (cw : List Rat) (iw : List (Rat × Rat)) (numTx : Int) :
    Nat → Int → List (List String) → List (List String) → Rng →
      Option (List (List String) × Int × Rng)
  | budget, attempts, seen, txs, r =>
    if (txs.length : Int) < numTx then
      match budget with
      | 0 => some (txs, attempts, r)
      | b + 1 =>
        match generate_transaction fuel items clusters cw iw r with
        | none => none
        | some (tx, r1) =>
          if tx ∈ seen then mainLoop fuel items clusters cw iw numTx b (attempts + 1) seen txs r1
          else mainLoop fuel items clusters cw iw numTx b (attempts + 1) (tx :: seen) (txs ++ [tx]) r1
    else some (txs, attempts, r)

/-- The success outcome assembled at the end of `main`: shortfall warning
when fewer than `numTx` transactions were produced, the serialized file, and
the success message. -/
def mkOutcome (txs : List (List String)) (attempts numTx : Int)
    (outPath : String) : RunOutcome :=
  ⟨0,
   (if (txs.length : Int) < numTx then [shortfallMsg txs.length numTx] else [])
     ++ [wroteMsg txs.length outPath],
   some (serialize txs), txs, attempts⟩

/-- The generation phase of `main` (everything after input validation):
`rng = random.Random(42)` has already produced the stream `g`; build the
clusters and item weights, run the loop with
`max_attempts = num_tx * 30`, print/persist. -/
def runGeneration (items : List String) (g : Nat → Nat) (fuel : Nat)
    (numTx : Int) (outPath : String) : Option RunOutcome :=
  match build_clusters items ⟨g, 0⟩ with
  | none => none
  | some ((clusters, cluster_weights), r1) =>
    match mainLoop fuel items clusters cluster_weights (itemWeights items.length)
        numTx (numTx * 30 - 0).toNat 0 [] [] r1 with
    | none => none
    | some (txs, attempts, _) => some (mkOutcome txs attempts numTx outPath)

/-- `main()` for a fixed three-argument invocation
`(item_spec, num_tx_str, out_path)`.  `fs` is the filesystem oracle of
`load_items`, `g` the stream of the generator seeded in `main`, `fuel` the
iteration bound given to the (unbounded) fill loop; `none` means the run
diverges within the modelled loops. -/
def mainRun (fs : String → Option String) (itemSpec numTxStr outPath : String)
    (g : Nat → Nat) (fuel : Nat) : Option RunOutcome :=
  match pyInt numTxStr with
  | none => some ⟨1, [intErrMsg], none, [], 0⟩
  | some numTx =>
    if (load_items fs itemSpec).isEmpty then some ⟨1, [emptyErrMsg], none, [], 0⟩
    else runGeneration (load_items fs itemSpec) g fuel numTx outPath

/-- Deterministic stand-in for the output stream of the Mersenne Twister
seeded with `seed` (`random.Random(42)` in the source).  The development uses
no property of the stream values; what matters is that the stream is a fixed
function of the seed alone, which makes every run a function of its inputs. -/
def mtStream (seed : Nat) : Nat → Nat :=
  fun i => (1103515245 * (seed + i) + 12345) % 2147483648

/-- A full run of the program as shipped: the random source is
`random.Random(42)`, i.e. the fixed stream `mtStream 42`. -/
def mainFixed (fs : String → Option String) (itemSpec numTxStr outPath : String)
    (fuel : Nat) : Option RunOutcome :=
  mainRun fs itemSpec numTxStr outPath (mtStream 42) fuel

/-! ## Helper lemmas about the random primitives -/

/-- `randint` never returns below `lo`. -/
lemma randint_fst_ge (lo hi : Nat) (r : Rng) : lo ≤ (randint lo hi r).1 := by
  unfold randint
  dsimp only
  split
  · exact le_refl lo
  · exact Nat.le_add_right lo _

/-- `randint lo hi` returns at most `hi` whenever the range is non-empty. -/
lemma randint_fst_le (lo hi : Nat) (r : Rng) (h : lo ≤ hi) :
    (randint lo hi r).1 ≤ hi := by
  unfold randint
  dsimp only
  rw [if_neg (Nat.not_lt.2 h)]
  have hm : r.next.1 % (hi + 1 - lo) < hi + 1 - lo :=
    Nat.mod_lt _ (by omega)
  omega

/-- A weighted single draw returns an element of the population. -/
lemma choicesOne_mem {α β : Type} (pop : List α) (w : List β) (r : Rng)
    (x : α) (r2 : Rng) (h : choicesOne pop w r = some (x, r2)) : x ∈ pop := by
  match pop with
  | [] => simp [choicesOne] at h
  | y :: ys =>
    unfold choicesOne at h
    dsimp only at h
    injection h with h1
    injection h1 with hx hr
    exact hx ▸ List.get_mem _ _ _

/-- In a duplicate-free list, the element at position `i` does not survive
the removal of position `i`. -/
lemma get_not_mem_eraseIdx {α : Type} :
    ∀ (l : List α) (i : Nat) (h : i < l.length), l.Nodup →
      l.get ⟨i, h⟩ ∉ l.eraseIdx i := by
  intro l
  induction l with
  | nil => intro i h; simp at h
  | cons a t ih =>
    intro i h hnd
    match i with
    | 0 =>
      simpa using (List.nodup_cons.mp hnd).1
    | j + 1 =>
      have h2 : j < t.length := by simpa using h
      intro hmem
      rw [show (a :: t).eraseIdx (j + 1) = a :: t.eraseIdx j from rfl] at hmem
      rcases List.mem_cons.mp hmem with heq | hmem2
      · have : a ∈ t := by
          rw [show (a :: t).get ⟨j + 1, h⟩ = t.get ⟨j, h2⟩ from rfl] at heq
          exact heq ▸ List.get_mem t j h2
        exact (List.nodup_cons.mp hnd).1 this
      · exact ih j h2 (List.nodup_cons.mp hnd).2 hmem2

/-- `rng.sample(pop, k)`: when it succeeds it returns exactly `k` elements of
`pop`, and duplicates are impossible when `pop` has none. -/
lemma sample_spec {α : Type} :
    ∀ (k : Nat) (pop : List α) (r : Rng) (l : List α) (r2 : Rng),
      sample pop k r = some (l, r2) →
      l.length = k ∧ (∀ x ∈ l, x ∈ pop) ∧ (pop.Nodup → l.Nodup) := by
  intro k
  induction k with
  | zero =>
    intro pop r l r2 h
    cases pop with
    | nil =>
      unfold sample at h
      injection h with h1
      injection h1 with hl hr
      subst hl
      simp
    | cons x xs =>
      unfold sample at h
      injection h with h1
      injection h1 with hl hr
      subst hl
      simp
  | succ n ih =>
    intro pop r l r2 h
    match pop with
    | [] => simp [sample] at h
    | x :: xs =>
      unfold sample at h
      dsimp only at h
      set i := r.next.1 % (x :: xs).length with hi
      set picked := (x :: xs).get ⟨i, Nat.mod_lt _ (Nat.succ_pos xs.length)⟩ with hpicked
      cases hs : sample ((x :: xs).eraseIdx i) n r.next.2 with
      | none => rw [hs] at h; exact absurd h (by simp)
      | some q =>
        rw [hs] at h
        obtain ⟨rest, r3⟩ := q
        injection h with h1
        injection h1 with hl hr
        obtain ⟨hlen, hmem, hnd⟩ := ih _ _ _ _ hs
        subst hl
        refine ⟨by simp [hlen], ?_, ?_⟩
        · intro y hy
          rcases List.mem_cons.mp hy with heq | hy2
          · exact heq ▸ List.get_mem _ _ _
          · exact (List.eraseIdx_sublist (x :: xs) i).subset (hmem y hy2)
        · intro hnodup
          refine List.nodup_cons.mpr ⟨?_, hnd ((List.eraseIdx_sublist _ i).nodup hnodup)⟩
          intro hp
          exact get_not_mem_eraseIdx (x :: xs) i _ hnodup (hmem _ hp)

/-! ## Helper lemmas about the set model -/

lemma setAdd_nodup (s : List String) (x : String) (h : s.Nodup) :
    (setAdd s x).Nodup := by
  unfold setAdd
  split
  · exact h
  · simp only [List.nodup_append]
    exact ⟨h, List.nodup_singleton x, by simpa using fun hx => by simp_all⟩

lemma setAdd_mem (s : List String) (x y : String) (h : y ∈ setAdd s x) :
    y ∈ s ∨ y = x := by
  unfold setAdd at h
  split at h
  · exact Or.inl h
  · rcases List.mem_append.mp h with h1 | h1
    · exact Or.inl h1
    · exact Or.inr (by simpa using h1)

lemma setAdd_length_le (s : List String) (x : String) :
    (setAdd s x).length ≤ s.length + 1 := by
  unfold setAdd
  split
  · omega
  · simp

lemma foldl_setAdd_nodup : ∀ (l acc : List String), acc.Nodup →
    (l.foldl setAdd acc).Nodup := by
  intro l
  induction l with
  | nil => intro acc h; exact h
  | cons a t ih => intro acc h; exact ih _ (setAdd_nodup acc a h)

lemma foldl_setAdd_mem : ∀ (l acc : List String) (y : String),
    y ∈ l.foldl setAdd acc → y ∈ acc ∨ y ∈ l := by
  intro l
  induction l with
  | nil => intro acc y h; exact Or.inl h
  | cons a t ih =>
    intro acc y h
    rcases ih _ _ h with h1 | h1
    · rcases setAdd_mem acc a y h1 with h2 | h2
      · exact Or.inl h2
      · exact Or.inr (by simp [h2])
    · exact Or.inr (List.mem_cons_of_mem a h1)

lemma foldl_setAdd_length : ∀ (l acc : List String),
    (l.foldl setAdd acc).length ≤ acc.length + l.length := by
  intro l
  induction l with
  | nil => intro acc; simp
  | cons a t ih =>
    intro acc
    calc (t.foldl setAdd (setAdd acc a)).length
        ≤ (setAdd acc a).length + t.length := ih _
      _ ≤ acc.length + (a :: t).length := by
          have := setAdd_length_le acc a
          simp only [List.length_cons]
          omega

/-! ## Helper lemmas about the loader -/

lemma dedupGo_sublist : ∀ (ts seen : List String), List.Sublist (dedupGo ts seen) ts := by
  intro ts
  induction ts with
  | nil => intro seen; simp [dedupGo]
  | cons t rest ih =>
    intro seen
    unfold dedupGo
    split
    · exact (ih seen).cons t
    · exact (ih (t :: seen)).cons₂ t

lemma mem_dedupGo : ∀ (ts seen : List String) (x : String),
    x ∈ dedupGo ts seen ↔ (x ∈ ts ∧ x ∉ seen) := by
  intro ts
  induction ts with
  | nil => intro seen x; simp [dedupGo]
  | cons t rest ih =>
    intro seen x
    unfold dedupGo
    split
    · rename_i hts
      rw [ih]
      constructor
      · rintro ⟨h1, h2⟩
        exact ⟨List.mem_cons_of_mem t h1, h2⟩
      · rintro ⟨h1, h2⟩
        rcases List.mem_cons.mp h1 with he | he
        · exact absurd (he ▸ hts) h2
        · exact ⟨he, h2⟩
    · rename_i hts
      constructor
      · intro h
        rcases List.mem_cons.mp h with he | he
        · exact ⟨by simp [he], he ▸ hts⟩
        · obtain ⟨h1, h2⟩ := (ih _ _).mp he
          exact ⟨List.mem_cons_of_mem t h1, fun hc => h2 (List.mem_cons_of_mem t hc)⟩
      · rintro ⟨h1, h2⟩
        rcases List.mem_cons.mp h1 with he | he
        · exact he ▸ List.mem_cons_self _ _
        · by_cases hxt : x = t
          · exact hxt ▸ List.mem_cons_self _ _
          · exact List.mem_cons_of_mem t ((ih _ _).mpr ⟨he, by simp [hxt, h2]⟩)

lemma dedupGo_nodup : ∀ (ts seen : List String), (dedupGo ts seen).Nodup := by
  intro ts
  induction ts with
  | nil => intro seen; simp [dedupGo]
  | cons t rest ih =>
    intro seen
    unfold dedupGo
    split
    · exact ih seen
    · refine List.nodup_cons.mpr ⟨?_, ih (t :: seen)⟩
      intro hc
      exact ((mem_dedupGo _ _ _).mp hc).2 (List.mem_cons_self _ _)

/-! ## Helper lemmas about the synthesizer -/

/-- When the fill loop finishes, the chosen set is duplicate-free, drawn from
the universe, and has exactly the target size — provided it started that way
and below the target. -/
lemma fillLoop_spec (items : List String) (iw : List (Rat × Rat)) (len : Nat) :
    ∀ (fuel : Nat) (chosen : List String) (r : Rng) (c2 : List String) (r2 : Rng),
      chosen.Nodup → (∀ x ∈ chosen, x ∈ items) → chosen.length ≤ len →
      fillLoop items iw len fuel chosen r = some (c2, r2) →
      c2.Nodup ∧ (∀ x ∈ c2, x ∈ items) ∧ c2.length = len := by
  intro fuel
  induction fuel with
  | zero =>
    intro chosen r c2 r2 hnd hsub hle h
    unfold fillLoop at h
    split at h
    · injection h with h1
      injection h1 with hc hr
      subst hc
      exact ⟨hnd, hsub, by omega⟩
    · exact absurd h (by simp)
  | succ f ih =>
    intro chosen r c2 r2 hnd hsub hle h
    unfold fillLoop at h
    split at h
    · injection h with h1
      injection h1 with hc hr
      subst hc
      exact ⟨hnd, hsub, by omega⟩
    · rename_i hlt
      cases hc : choicesOne items iw r with
      | none => rw [hc] at h; exact absurd h (by simp)
      | some q =>
        rw [hc] at h
        obtain ⟨item, r1⟩ := q
        refine ih (setAdd chosen item) r1 c2 r2 (setAdd_nodup _ _ hnd) ?_ ?_ h
        · intro y hy
          rcases setAdd_mem _ _ _ hy with h1 | h1
          · exact hsub y h1
          · exact h1 ▸ choicesOne_mem items iw r item r1 hc
        · have := setAdd_length_le chosen item
          omega

/-- If the target length exceeds the number of distinct items in the
universe, the fill loop never finishes, with any fuel: the chosen set can
never reach the target. -/
lemma fillLoop_none_of_short (items : List String) (iw : List (Rat × Rat)) (len : Nat)
    (hshort : items.length < len) :
    ∀ (fuel : Nat) (chosen : List String) (r : Rng),
      chosen.Nodup → (∀ x ∈ chosen, x ∈ items) →
      fillLoop items iw len fuel chosen r = none := by
  intro fuel
  induction fuel with
  | zero =>
    intro chosen r hnd hsub
    unfold fillLoop
    have hlen : chosen.length ≤ items.length :=
      (List.subperm_of_subset hnd hsub).length_le
    rw [if_neg (by omega)]
  | succ f ih =>
    intro chosen r hnd hsub
    unfold fillLoop
    have hlen : chosen.length ≤ items.length :=
      (List.subperm_of_subset hnd hsub).length_le
    rw [if_neg (by omega)]
    cases hc : choicesOne items iw r with
    | none => rfl
    | some q =>
      obtain ⟨item, r1⟩ := q
      refine ih (setAdd chosen item) r1 (setAdd_nodup _ _ hnd) ?_
      intro y hy
      rcases setAdd_mem _ _ _ hy with h1 | h1
      · exact hsub y h1
      · exact h1 ▸ choicesOne_mem items iw r item r1 hc

/-- The cluster-seeding step returns a duplicate-free subset of the universe
of size at most the target length (for targets of size ≥ 2, which
`choose_length` always produces on universes of size ≥ 2). -/
lemma seedChosen_spec (clusters : List (List String)) (cw : List Rat)
    (items : List String) (len : Nat) (r : Rng) (chosen : List String) (r2 : Rng)
    (hlen : 2 ≤ len) (hcl : ∀ c ∈ clusters, ∀ x ∈ c, x ∈ items)
    (h : seedChosen clusters cw len r = some (chosen, r2)) :
    chosen.Nodup ∧ (∀ x ∈ chosen, x ∈ items) ∧ chosen.length ≤ len := by
  match clusters with
  | [] =>
    unfold seedChosen at h
    injection h with h1
    injection h1 with hc hr
    subst hc
    simp
  | cl :: cls =>
    unfold seedChosen at h
    dsimp only at h
    cases hco : choicesOne (cl :: cls) cw r with
    | none => rw [hco] at h; exact absurd h (by simp)
    | some q =>
      rw [hco] at h
      obtain ⟨cluster, r1⟩ := q
      dsimp only at h
      set min_pick := if 2 ≤ cluster.length then 2 else 1 with hmp
      set max_pick := max min_pick (min cluster.length (max 2 (len / 2))) with hMp
      cases hs : sample cluster (randint min_pick max_pick r1).1 (randint min_pick max_pick r1).2 with
      | none => rw [hs] at h; exact absurd h (by simp)
      | some q2 =>
        rw [hs] at h
        obtain ⟨seedItems, r3⟩ := q2
        injection h with h1
        injection h1 with hc hr
        subst hc
        obtain ⟨hslen, hsmem, _⟩ := sample_spec _ _ _ _ _ hs
        have hcluster : ∀ x ∈ cluster, x ∈ items :=
          hcl cluster (choicesOne_mem _ _ _ _ _ hco)
        refine ⟨foldl_setAdd_nodup _ _ (by simp), ?_, ?_⟩
        · intro y hy
          rcases foldl_setAdd_mem _ _ _ hy with h1 | h1
          · simp at h1
          · exact hcluster y (hsmem y h1)
        · have h1 : (seedItems.foldl setAdd []).length ≤ seedItems.length := by
            have := foldl_setAdd_length seedItems []
            simpa using this
          have h2 : min_pick ≤ max_pick := le_max_left _ _
          have h3 : (randint min_pick max_pick r1).1 ≤ max_pick :=
            randint_fst_le _ _ _ h2
          have h4 : max_pick ≤ len := by
            apply max_le
            · have : min_pick ≤ 2 := by rw [hmp]; split <;> omega
              omega
            · calc min cluster.length (max 2 (len / 2)) ≤ max 2 (len / 2) :=
                    min_le_right _ _
                _ ≤ len := by
                    apply max_le hlen
                    exact le_trans (Nat.div_le_self len 2) (le_refl len)
          omega

/-- On a universe of size ≥ 2, the chosen target length is between 2 and the
universe size. -/
lemma choose_length_bounds (n : Nat) (r : Rng) (h : 2 ≤ n) :
    2 ≤ (choose_length n r).1 ∧ (choose_length n r).1 ≤ n := by
  unfold choose_length
  dsimp only
  split
  · constructor
    · simp
    · omega
  · rename_i h5
    have h6 : 6 ≤ n := by omega
    split
    · have h3 : 3 ≤ (randint 3 5 (randfrac r).2).1 := randint_fst_ge _ _ _
      constructor
      · simp only [ge_iff_le, le_min_iff]
        omega
      · exact min_le_left _ _
    · split
      · have h3 : 6 ≤ (randint 6 12 (randfrac r).2).1 := randint_fst_ge _ _ _
        constructor
        · simp only [ge_iff_le, le_min_iff]
          omega
        · exact min_le_left _ _
      · have h3 : 12 ≤ (randint 12 20 (randfrac r).2).1 := randint_fst_ge _ _ _
        constructor
        · simp only [ge_iff_le, le_min_iff]
          omega
        · exact min_le_left _ _

/-- Filtering a duplicate-free universe down to a duplicate-free subset of it
keeps exactly the subset's elements. -/
lemma filter_mem_length (items c : List String) (hitems : items.Nodup)
    (hc : c.Nodup) (hsub : ∀ x ∈ c, x ∈ items) :
    (items.filter (fun it => decide (it ∈ c))).length = c.length := by
  have hfnd : (items.filter (fun it => decide (it ∈ c))).Nodup :=
    hitems.filter _
  have hmem : ∀ x, x ∈ items.filter (fun it => decide (it ∈ c)) ↔ x ∈ c := by
    intro x
    rw [List.mem_filter]
    simp only [decide_eq_true_eq]
    exact ⟨fun h => h.2, fun h => ⟨hsub x h, h⟩⟩
  have hperm : (items.filter (fun it => decide (it ∈ c))).Perm c := by
    apply List.Subperm.antisymm
    · exact List.subperm_of_subset hfnd (fun x hx => (hmem x).mp hx)
    · exact List.subperm_of_subset hc (fun x hx => (hmem x).mpr hx)
  exact hperm.length_eq

/-- The returned transaction is always a sublist (subset in universe order)
of the universe, whatever the draws did. -/
lemma generate_sublist (fuel : Nat) (items : List String)
    (clusters : List (List String)) (cw : List Rat) (iw : List (Rat × Rat))
    (r : Rng) (tx : List String) (r2 : Rng)
    (h : generate_transaction fuel items clusters cw iw r = some (tx, r2)) :
    List.Sublist tx items := by
  unfold generate_transaction at h
  dsimp only at h
  cases hsc : seedChosen clusters cw (choose_length items.length r).1
      (choose_length items.length r).2 with
  | none => rw [hsc] at h; exact absurd h (by simp)
  | some q =>
    rw [hsc] at h
    obtain ⟨chosen, rs⟩ := q
    dsimp only at h
    cases hfl : fillLoop items iw (choose_length items.length r).1 fuel chosen rs with
    | none => rw [hfl] at h; exact absurd h (by simp)
    | some q2 =>
      rw [hfl] at h
      obtain ⟨chosen2, r3⟩ := q2
      injection h with h1
      injection h1 with htx hr
      subst htx
      exact List.filter_sublist items

/-- On a duplicate-free universe of size ≥ 2 whose clusters only contain
universe items, a successful synthesis returns exactly the target length
chosen in step 1. -/
lemma generate_length (fuel : Nat) (items : List String)
    (clusters : List (List String)) (cw : List Rat) (iw : List (Rat × Rat))
    (r : Rng) (tx : List String) (r2 : Rng)
    (hnd : items.Nodup) (h2 : 2 ≤ items.length)
    (hcl : ∀ c ∈ clusters, ∀ x ∈ c, x ∈ items)
    (h : generate_transaction fuel items clusters cw iw r = some (tx, r2)) :
    tx.length = (choose_length items.length r).1 := by
  obtain ⟨hlb, hub⟩ := choose_length_bounds items.length r h2
  unfold generate_transaction at h
  dsimp only at h
  cases hsc : seedChosen clusters cw (choose_length items.length r).1
      (choose_length items.length r).2 with
  | none => rw [hsc] at h; exact absurd h (by simp)
  | some q =>
    rw [hsc] at h
    obtain ⟨chosen, rs⟩ := q
    dsimp only at h
    obtain ⟨hcnd, hcsub, hclen⟩ :=
      seedChosen_spec clusters cw items _ _ chosen rs hlb hcl hsc
    cases hfl : fillLoop items iw (choose_length items.length r).1 fuel chosen rs with
    | none => rw [hfl] at h; exact absurd h (by simp)
    | some q2 =>
      rw [hfl] at h
      obtain ⟨chosen2, r3⟩ := q2
      obtain ⟨h2nd, h2sub, h2len⟩ :=
        fillLoop_spec items iw _ fuel chosen rs chosen2 r3 hcnd hcsub hclen hfl
      injection h with h1
      injection h1 with htx hr
      subst htx
      rw [filter_mem_length items chosen2 hnd h2nd h2sub, h2len]

/-- On a universe the size-1 fill target of 2 can never be met, so the
synthesizer diverges for every fuel: the fill loop never terminates. -/
lemma generate_singleton_none (fuel : Nat) (a : String) (cw : List Rat)
    (iw : List (Rat × Rat)) (r : Rng) :
    generate_transaction fuel [a] [] cw iw r = none := by
  unfold generate_transaction
  dsimp only
  have hcl : choose_length ([a] : List String).length r = (2, r) := by
    unfold choose_length
    simp
  rw [hcl]
  dsimp only
  rw [show seedChosen [] cw 2 r = some ([], r) from rfl]
  dsimp only
  rw [fillLoop_none_of_short [a] iw 2 (by simp) fuel [] r (by simp) (by simp)]

/-- Each pass of the cluster loop yields exactly one cluster whose size is in
`[3, min 12 n]`, drawn without replacement from the universe. -/
lemma buildClustersGo_spec (items : List String) (n : Nat) (hn : 4 ≤ n)
    (heq : n = items.length) :
    ∀ (k : Nat) (r : Rng) (cs : List (List String)) (r2 : Rng),
      buildClustersGo items n k r = some (cs, r2) →
      cs.length = k ∧ ∀ c ∈ cs, 3 ≤ c.length ∧ c.length ≤ min 12 n ∧
        (∀ x ∈ c, x ∈ items) ∧ (items.Nodup → c.Nodup) := by
  intro k
  induction k with
  | zero =>
    intro r cs r2 h
    unfold buildClustersGo at h
    injection h with h1
    injection h1 with hc hr
    subst hc
    simp
  | succ m ih =>
    intro r cs r2 h
    unfold buildClustersGo at h
    dsimp only at h
    have h3 : 3 ≤ min 12 n := by omega
    rw [if_neg (by omega)] at h
    cases hs : sample items (randint 3 (min 12 n) r).1 (randint 3 (min 12 n) r).2 with
    | none => rw [hs] at h; exact absurd h (by simp)
    | some q =>
      rw [hs] at h
      obtain ⟨c, r3⟩ := q
      dsimp only at h
      cases hb : buildClustersGo items n m r3 with
      | none => rw [hb] at h; exact absurd h (by simp)
      | some q2 =>
        rw [hb] at h
        obtain ⟨cs0, r4⟩ := q2
        injection h with h1
        injection h1 with hc hr
        subst hc
        obtain ⟨hlen0, hrest⟩ := ih r3 cs0 r4 hb
        obtain ⟨hslen, hsmem, hsnd⟩ := sample_spec _ _ _ _ _ hs
        refine ⟨by simp [hlen0], ?_⟩
        intro c2 hc2
        rcases List.mem_cons.mp hc2 with he | he
        · subst he
          refine ⟨?_, ?_, hsmem, hsnd⟩
          · rw [hslen]; exact randint_fst_ge _ _ _
          · rw [hslen]; exact randint_fst_le _ _ _ h3
        · exact hrest c2 he

/-- Invariants of the generation loop of `main`: accepted transactions stay
unique (each accepted tuple is recorded in `seen` first), the result never
grows past the request, and `attempts` grows by at most the budget. -/
lemma mainLoop_spec (fuel : Nat) (items : List String)
    (clusters : List (List String)) (cw : List Rat) (iw : List (Rat × Rat))
    (numTx : Int) :
    ∀ (budget : Nat) (attempts : Int) (seen txs : List (List String)) (r : Rng)
      (txs2 : List (List String)) (a2 : Int) (r2 : Rng),
      mainLoop fuel items clusters cw iw numTx budget attempts seen txs r
        = some (txs2, a2, r2) →
      (txs.Nodup → (∀ t ∈ txs, t ∈ seen) → txs2.Nodup) ∧
      ((txs.length : Int) ≤ numTx → (txs2.length : Int) ≤ numTx) ∧
      a2 ≤ attempts + budget := by
  intro budget
  induction budget with
  | zero =>
    intro attempts seen txs r txs2 a2 r2 h
    unfold mainLoop at h
    split at h <;>
      (injection h with h1
       injection h1 with htx h2
       injection h2 with ha hr
       subst htx
       subst ha
       exact ⟨fun hnd _ => hnd, fun hle => hle, by omega⟩)
  | succ b ih =>
    intro attempts seen txs r txs2 a2 r2 h
    unfold mainLoop at h
    split at h
    · rename_i hlt
      cases hg : generate_transaction fuel items clusters cw iw r with
      | none => rw [hg] at h; exact absurd h (by simp)
      | some q =>
        rw [hg] at h
        obtain ⟨tx, r1⟩ := q
        dsimp only at h
        by_cases hseen : tx ∈ seen
        · rw [if_pos hseen] at h
          obtain ⟨p1, p2, p3⟩ := ih (attempts + 1) seen txs r1 txs2 a2 r2 h
          exact ⟨p1, p2, by push_cast; omega⟩
        · rw [if_neg hseen] at h
          obtain ⟨p1, p2, p3⟩ := ih (attempts + 1) (tx :: seen) (txs ++ [tx]) r1 txs2 a2 r2 h
          refine ⟨?_, ?_, by push_cast; omega⟩
          · intro hnd hsub
            refine p1 ?_ ?_
            · simp only [List.nodup_append, List.nodup_singleton]
              refine ⟨hnd, by simp, ?_⟩
              intro t ht htx
              rcases List.mem_singleton.mp htx with he
              exact hseen (he ▸ hsub t ht)
            · intro t ht
              rcases List.mem_append.mp ht with h1 | h1
              · exact List.mem_cons_of_mem tx (hsub t h1)
              · simp at h1
                simp [h1]
          · intro hle
            refine p2 ?_
            simp only [List.length_append, List.length_singleton]
            push_cast
            omega
    · injection h with h1
      injection h1 with htx h2
      injection h2 with ha hr
      subst htx
      subst ha
      exact ⟨fun hnd _ => hnd, fun hle => hle, by omega⟩

/-- Exhaustive case analysis of `mainRun`: either one of the two fatal input
errors (no output file), or a completed generation with its loop results. -/
lemma mainRun_cases (fs : String → Option String) (spec cnt outp : String)
    (g : Nat → Nat) (fuel : Nat) (out : RunOutcome)
    (h : mainRun fs spec cnt outp g fuel = some out) :
    (pyInt cnt = none ∧ out = ⟨1, [intErrMsg], none, [], 0⟩) ∨
    (∃ N, pyInt cnt = some N ∧ load_items fs spec = [] ∧
      out = ⟨1, [emptyErrMsg], none, [], 0⟩) ∨
    (∃ N clusters cw r1 txs attempts r2,
      pyInt cnt = some N ∧ load_items fs spec ≠ [] ∧
      build_clusters (load_items fs spec) ⟨g, 0⟩ = some ((clusters, cw), r1) ∧
      mainLoop fuel (load_items fs spec) clusters cw
          (itemWeights (load_items fs spec).length) N (N * 30 - 0).toNat 0 [] [] r1
        = some (txs, attempts, r2) ∧
      out = mkOutcome txs attempts N outp) := by
  unfold mainRun at h
  split at h
  · rename_i hpy
    injection h with h1
    exact Or.inl ⟨hpy, h1.symm⟩
  · rename_i N hpy
    split at h
    · rename_i hemp
      injection h with h1
      exact Or.inr (Or.inl ⟨N, hpy, List.isEmpty_iff.mp hemp, h1.symm⟩)
    · rename_i hemp
      unfold runGeneration at h
      split at h
      · exact absurd h (by simp)
      · rename_i clusters cw r1 hbc
        split at h
        · exact absurd h (by simp)
        · rename_i txs attempts r2 hml
          injection h with h1
          refine Or.inr (Or.inr ⟨N, clusters, cw, r1, txs, attempts, r2, hpy, ?_, hbc, hml, h1.symm⟩)
          intro hc
          exact hemp (by simp [hc])

/-! ## The claims -/

/-- C1: for every item specification, requested count, and output path held
fixed, two independent runs of the generator produce byte-identical output
files: the random source is constructed with the fixed seed 42 and shared in
a fixed call order, so the entire run — `RunOutcome.file` being the bytes of
the output file — is a deterministic function of the run's inputs. -/
theorem C1_determinism (fs1 fs2 : String → Option String)
    (spec1 spec2 cnt1 cnt2 out1 out2 : String) (fuel1 fuel2 : Nat)
    (hfs : fs1 = fs2) (hspec : spec1 = spec2) (hcnt : cnt1 = cnt2)
    (hout : out1 = out2) (hfuel : fuel1 = fuel2) :
    mainFixed fs1 spec1 cnt1 out1 fuel1 = mainFixed fs2 spec2 cnt2 out2 fuel2 := by
  subst hfs
  subst hspec
  subst hcnt
  subst hout
  subst hfuel
  rfl

theorem C1_determinism_witness :
    mainFixed (fun _ => none) "a b c" "1" "o.txt" 9
      = mainFixed (fun _ => none) "a b c" "1" "o.txt" 9 :=
  C1_determinism (fun _ => none) (fun _ => none) "a b c" "a b c" "1" "1"
    "o.txt" "o.txt" 9 9 rfl rfl rfl rfl rfl

/-- C2: every transaction placed in the output is a subset of the universe
containing no foreign item, and its items appear in the same relative order
as in the universe sequence (it is a sublist of the universe), regardless of
the order in which they were chosen during synthesis. -/
theorem C2_subset_order (fuel : Nat) (items : List String)
    (clusters : List (List String)) (cw : List Rat) (iw : List (Rat × Rat))
    (r r2 : Rng) (tx : List String)
    (h : generate_transaction fuel items clusters cw iw r = some (tx, r2)) :
    List.Sublist tx items ∧ ∀ x ∈ tx, x ∈ items :=
  ⟨generate_sublist fuel items clusters cw iw r tx r2 h,
   fun _ hx => (generate_sublist fuel items clusters cw iw r tx r2 h).subset hx⟩

theorem C2_subset_order_witness :
    generate_transaction 10 ["a", "b", "c"] [] [] [] ⟨fun n => n, 0⟩
        = some (["a", "b", "c"], ⟨fun n => n, 3⟩) ∧
      (List.Sublist (["a", "b", "c"] : List String) ["a", "b", "c"] ∧
        ∀ x ∈ (["a", "b", "c"] : List String), x ∈ (["a", "b", "c"] : List String)) :=
  ⟨rfl, C2_subset_order 10 ["a", "b", "c"] [] [] [] ⟨fun n => n, 0⟩
    ⟨fun n => n, 3⟩ ["a", "b", "c"] rfl⟩

/-- C3: within a single generation run the assembled dataset contains no
duplicate transaction: the `transactions` list is duplicate-free, so the
transactions at two distinct positions always differ as ordered tuples. -/
theorem C3_unique (fs : String → Option String) (spec cnt outp : String)
    (g : Nat → Nat) (fuel : Nat) (out : RunOutcome)
    (h : mainRun fs spec cnt outp g fuel = some out) :
    out.txs.Nodup ∧
      ∀ (i j : Fin out.txs.length), i ≠ j → out.txs.get i ≠ out.txs.get j := by
  have hnd : out.txs.Nodup := by
    rcases mainRun_cases fs spec cnt outp g fuel out h with
      ⟨_, ho⟩ | ⟨N, _, _, ho⟩ | ⟨N, cs, cw, r1, txs, a, r2, hpy, hne, hbc, hml, ho⟩
    · subst ho; simp
    · subst ho; simp
    · subst ho
      have := (mainLoop_spec fuel _ cs cw _ N _ 0 [] [] r1 txs a r2 hml).1
      simpa [mkOutcome] using this (by simp) (by simp)
  refine ⟨hnd, ?_⟩
  intro i j hij hc
  exact hij ((List.nodup_iff_injective_get.mp hnd) hc)

def c3out : RunOutcome :=
  ⟨0, [wroteMsg 1 "o"], some "a b c\n", [["a", "b", "c"]], 1⟩

theorem C3_unique_witness :
    mainRun (fun _ => none) "a b c" "1" "o" (fun n => n) 10 = some c3out ∧
      (c3out.txs.Nodup ∧
        ∀ (i j : Fin c3out.txs.length), i ≠ j → c3out.txs.get i ≠ c3out.txs.get j) :=
  ⟨rfl, C3_unique (fun _ => none) "a b c" "1" "o" (fun n => n) 10 c3out rfl⟩

/-- One pass of the generation loop on the singleton universe `["a"]`
immediately diverges: the synthesizer's fill loop cannot reach its target
length of 2. -/
lemma mainLoop_singleton_one_none (fuel : Nat) (cw : List Rat)
    (iw : List (Rat × Rat)) (r : Rng) (b : Nat) :
    mainLoop fuel ["a"] [] cw iw 1 (b + 1) 0 [] [] r = none := by
  unfold mainLoop
  rw [if_pos (show ((([] : List (List String)).length : Int) < 1) by simp)]
  dsimp only
  rw [generate_singleton_none fuel "a" cw iw r]

/-- A run on the one-item universe `"a"` with requested count 1 diverges for
every stream and every fuel: the fill loop never terminates. -/
lemma mainRun_singleton_none (g : Nat → Nat) (fuel : Nat) :
    mainRun (fun _ => none) "a" "1" "o" g fuel = none := by
  have h1 : mainRun (fun _ => none) "a" "1" "o" g fuel
      = runGeneration ["a"] g fuel 1 "o" := rfl
  rw [h1]
  unfold runGeneration
  rw [show build_clusters ["a"] ⟨g, 0⟩ = some (([], []), ⟨g, 0⟩) from rfl]
  dsimp only
  rw [show ((1 : Int) * 30 - 0).toNat = 29 + 1 from rfl]
  rw [mainLoop_singleton_one_none fuel [] (itemWeights (["a"] : List String).length) ⟨g, 0⟩ 29]

/-- C4 counterexample: the claim "the whole generation run terminates, the
retry budget being the sole bound" is false at universe `"a"` and count 1:
no fuel makes the run finish — the synthesizer's fill loop (which the retry
budget does not bound) never terminates when the target length 2 exceeds the
single-item universe. -/
theorem C4_counterexample :
    ¬ ∃ (fuel : Nat) (out : RunOutcome),
      mainRun (fun _ => none) "a" "1" "o" (fun _ => 0) fuel = some out := by
  rintro ⟨fuel, out, h⟩
  rw [mainRun_singleton_none (fun _ => 0) fuel] at h
  exact Option.noConfusion h

/-- C4 (amended): the retry budget bounds the assembler's attempt loop — a
completed loop never exceeds its budget of `N × 30` attempts — but it is not
the sole bound on runtime and the run need not terminate: on the
one-item universe the synthesizer's unbounded fill loop never finishes, for
every random stream and every fuel. -/
theorem C4_budget_not_sole_bound :
    (∀ (fuel : Nat) (items : List String) (clusters : List (List String))
        (cw : List Rat) (iw : List (Rat × Rat)) (numTx : Int) (budget : Nat)
        (txs : List (List String)) (a : Int) (r r2 : Rng),
      mainLoop fuel items clusters cw iw numTx budget 0 [] [] r = some (txs, a, r2) →
      a ≤ (budget : Int)) ∧
    (∀ (g : Nat → Nat) (fuel : Nat),
      mainRun (fun _ => none) "a" "1" "o" g fuel = none) := by
  constructor
  · intro fuel items clusters cw iw numTx budget txs a r r2 h
    have := (mainLoop_spec fuel items clusters cw iw numTx budget 0 [] [] r txs a r2 h).2.2
    omega
  · exact fun g fuel => mainRun_singleton_none g fuel

theorem C4_budget_not_sole_bound_witness :
    mainLoop 10 ["a", "b", "c"] [] [] [] 1 30 0 [] [] ⟨fun n => n, 0⟩
        = some ([["a", "b", "c"]], 1, ⟨fun n => n, 3⟩) ∧
      (1 : Int) ≤ ((30 : Nat) : Int) :=
  ⟨rfl, C4_budget_not_sole_bound.1 10 ["a", "b", "c"] [] [] [] 1 30
    [["a", "b", "c"]] 1 ⟨fun n => n, 0⟩ ⟨fun n => n, 3⟩ rfl⟩

/-- The `n ≤ 5` branch of step 1 returns exactly the universe size when the
universe has between 2 and 5 items. -/
lemma choose_length_small (n : Nat) (r : Rng) (h2 : 2 ≤ n) (h5 : n ≤ 5) :
    (choose_length n r).1 = n := by
  unfold choose_length
  rw [if_pos h5]
  dsimp only
  omega

/-- C5 counterexample: on a universe of size 1 the step-1 target length is
2, not 1, and the synthesizer never yields any transaction at all (for every
fuel) — so "a universe of size 1 yields length-1 transactions" fails. -/
theorem C5_counterexample :
    (choose_length 1 ⟨fun _ => 0, 0⟩).1 = 2 ∧
      ∀ (fuel : Nat),
        generate_transaction fuel ["a"] [] [] (itemWeights 1) ⟨fun _ => 0, 0⟩ = none :=
  ⟨rfl, fun fuel => generate_singleton_none fuel "a" [] (itemWeights 1) ⟨fun _ => 0, 0⟩⟩

/-- C5 (amended): for every duplicate-free universe of size 2 to 5 (with
clusters drawn from it), every synthesized transaction has length equal to
the universe size; for a universe of size 1 the synthesizer yields no
transaction whatsoever — its fill loop never terminates. -/
theorem C5_small_universe_length :
    (∀ (fuel : Nat) (items : List String) (clusters : List (List String))
        (cw : List Rat) (iw : List (Rat × Rat)) (r r2 : Rng) (tx : List String),
      items.Nodup → 2 ≤ items.length → items.length ≤ 5 →
      (∀ c ∈ clusters, ∀ x ∈ c, x ∈ items) →
      generate_transaction fuel items clusters cw iw r = some (tx, r2) →
      tx.length = items.length) ∧
    (∀ (fuel : Nat) (a : String) (cw : List Rat) (iw : List (Rat × Rat)) (r : Rng),
      generate_transaction fuel [a] [] cw iw r = none) := by
  constructor
  · intro fuel items clusters cw iw r r2 tx hnd h2 h5 hcl h
    rw [generate_length fuel items clusters cw iw r tx r2 hnd h2 hcl h]
    exact choose_length_small items.length r h2 h5
  · exact fun fuel a cw iw r => generate_singleton_none fuel a cw iw r

theorem C5_small_universe_length_witness :
    (["p", "q", "r"] : List String).Nodup ∧
      generate_transaction 10 ["p", "q", "r"] [] [] [] ⟨fun n => n, 0⟩
        = some (["p", "q", "r"], ⟨fun n => n, 3⟩) ∧
      (["p", "q", "r"] : List String).length = (["p", "q", "r"] : List String).length :=
  ⟨by decide, rfl,
   C5_small_universe_length.1 10 ["p", "q", "r"] [] [] [] ⟨fun n => n, 0⟩
     ⟨fun n => n, 3⟩ ["p", "q", "r"] (by decide) (by decide) (by decide)
     (by simp) rfl⟩

/-- C6: for a requested count `N ≥ 0`, a completed run performs at most
`N × 30` synthesis attempts, returns at most `N` transactions, persists the
dataset as one space-joined line per transaction in generation order, and on
a shortfall emits the non-fatal warning before the success message while
still persisting the partial dataset. -/
theorem C6_assembler (fs : String → Option String) (spec cnt outp : String)
    (g : Nat → Nat) (fuel : Nat) (out : RunOutcome) (N : Int)
    (h : mainRun fs spec cnt outp g fuel = some out) (hpy : pyInt cnt = some N)
    (hN : 0 ≤ N) (hexit : out.exitCode = 0) :
    out.attempts ≤ N * 30 ∧ (out.txs.length : Int) ≤ N ∧
      out.file = some (serialize out.txs) ∧
      ((out.txs.length : Int) < N →
        out.stdout = [shortfallMsg out.txs.length N, wroteMsg out.txs.length outp]) := by
  rcases mainRun_cases fs spec cnt outp g fuel out h with
    ⟨hnone, ho⟩ | ⟨N2, hpy2, hemp, ho⟩ | ⟨N2, cs, cw, r1, txs, a, r2, hpy2, hne, hbc, hml, ho⟩
  · rw [hpy] at hnone
    exact Option.noConfusion hnone
  · subst ho
    simp at hexit
  · have hNN : N = N2 := by
      rw [hpy] at hpy2
      exact Option.some.inj hpy2
    subst hNN
    subst ho
    obtain ⟨p1, p2, p3⟩ :=
      mainLoop_spec fuel (load_items fs spec) cs cw
        (itemWeights (load_items fs spec).length) N ((N * 30 - 0).toNat) 0 [] [] r1
        txs a r2 hml
    have htn : (((N * 30 - 0).toNat : Nat) : Int) = N * 30 := by omega
    refine ⟨?_, ?_, ?_, ?_⟩
    · show a ≤ N * 30
      omega
    · show ((txs.length : Int)) ≤ N
      exact p2 (by simpa using hN)
    · rfl
    · intro hlt
      have hlt2 : (txs.length : Int) < N := by simpa [mkOutcome] using hlt
      simp [mkOutcome, hlt2]

def c6out : RunOutcome :=
  ⟨0, [shortfallMsg 1 2, wroteMsg 1 "o"], some "a b c\n", [["a", "b", "c"]], 60⟩

theorem C6_assembler_witness :
    mainRun (fun _ => none) "a b c" "2" "o" (fun n => n) 10 = some c6out ∧
      pyInt "2" = some 2 ∧ (0 : Int) ≤ 2 ∧ c6out.exitCode = 0 ∧
      (c6out.attempts ≤ 2 * 30 ∧ (c6out.txs.length : Int) ≤ 2 ∧
        c6out.file = some (serialize c6out.txs) ∧
        ((c6out.txs.length : Int) < 2 →
          c6out.stdout = [shortfallMsg c6out.txs.length 2, wroteMsg c6out.txs.length "o"])) :=
  ⟨rfl, rfl, by norm_num, rfl,
   C6_assembler (fun _ => none) "a b c" "2" "o" (fun n => n) 10 c6out 2
     rfl rfl (by norm_num) rfl⟩

/-- C7: a transaction count that is not parseable as a base-10 integer — in
particular `"abc"` — or an empty resolved universe causes exit code 1 with a
descriptive message, before any generation work and before any output file
is created (the outcome carries no file and does not depend on the random
stream or the fuel). -/
theorem C7_fatal_inputs :
    pyInt "abc" = none ∧
    (∀ (fs : String → Option String) (spec cnt outp : String) (g : Nat → Nat) (fuel : Nat),
      pyInt cnt = none →
      mainRun fs spec cnt outp g fuel = some ⟨1, [intErrMsg], none, [], 0⟩) ∧
    (∀ (fs : String → Option String) (spec cnt outp : String) (g : Nat → Nat)
        (fuel : Nat) (N : Int),
      pyInt cnt = some N → load_items fs spec = [] →
      mainRun fs spec cnt outp g fuel = some ⟨1, [emptyErrMsg], none, [], 0⟩) := by
  refine ⟨rfl, ?_, ?_⟩
  · intro fs spec cnt outp g fuel hpy
    unfold mainRun
    rw [hpy]
  · intro fs spec cnt outp g fuel N hpy hemp
    unfold mainRun
    rw [hpy]
    dsimp only
    rw [hemp]
    rfl

theorem C7_fatal_inputs_witness :
    pyInt "abc" = none ∧
      mainRun (fun _ => none) "a b" "abc" "o" (fun n => n) 5
        = some ⟨1, [intErrMsg], none, [], 0⟩ :=
  ⟨rfl, C7_fatal_inputs.2.1 (fun _ => none) "a b" "abc" "o" (fun n => n) 5 rfl⟩

/-- C8: the loader uses the file text when the path exists and the argument
itself otherwise; in both cases it comma-normalises, whitespace-splits, and
deduplicates tokens preserving first-seen order (the result is duplicate-free,
is a sublist of the token sequence — hence in first-seen order — and keeps
exactly the tokens); the non-existent path `"x,y,z"` yields `["x","y","z"]`. -/
theorem C8_loader :
    (∀ (fs : String → Option String) (spec text : String), fs spec = some text →
      load_items fs spec = dedupGo (tokenize text) []) ∧
    (∀ (fs : String → Option String) (spec : String), fs spec = none →
      load_items fs spec = dedupGo (tokenize spec) []) ∧
    (∀ (fs : String → Option String) (spec : String),
      (load_items fs spec).Nodup ∧
      List.Sublist (load_items fs spec) (tokenize ((fs spec).getD spec)) ∧
      (∀ x, x ∈ load_items fs spec ↔ x ∈ tokenize ((fs spec).getD spec))) ∧
    load_items (fun _ => none) "x,y,z" = ["x", "y", "z"] := by
  refine ⟨?_, ?_, ?_, rfl⟩
  · intro fs spec text h
    unfold load_items
    rw [h]
  · intro fs spec h
    unfold load_items
    rw [h]
  · intro fs spec
    unfold load_items
    cases h : fs spec with
    | none =>
      refine ⟨dedupGo_nodup _ _, ?_, ?_⟩
      · simpa using dedupGo_sublist (tokenize spec) []
      · intro x
        simpa using mem_dedupGo (tokenize spec) [] x
    | some text =>
      refine ⟨dedupGo_nodup _ _, ?_, ?_⟩
      · simpa using dedupGo_sublist (tokenize text) []
      · intro x
        simpa using mem_dedupGo (tokenize text) [] x

theorem C8_loader_witness :
    ((fun _ => some "p,p q") "f" : Option String) = some "p,p q" ∧
      load_items (fun _ => some "p,p q") "f" = dedupGo (tokenize "p,p q") [] :=
  ⟨rfl, C8_loader.1 (fun _ => some "p,p q") "f" "p,p q" rfl⟩

/-- C9: on a duplicate-free universe of size `n < 4` the cluster builder
returns empty cluster and weight lists; for `n ≥ 4` it returns exactly
`k = clamp(n / 5, 3, 10)` clusters, each between 3 and `min 12 n` distinct
universe items sampled without replacement, with the parallel weight list
assigning `1/(rank+1)` to the cluster of 0-based rank. -/
theorem C9_clusters (items : List String) (r : Rng) (hnd : items.Nodup) :
    (items.length < 4 → build_clusters items r = some (([], []), r)) ∧
    (∀ (cs : List (List String)) (ws : List Rat) (r2 : Rng), 4 ≤ items.length →
      build_clusters items r = some ((cs, ws), r2) →
      cs.length = max 3 (min 10 (items.length / 5)) ∧
      (∀ c ∈ cs, 3 ≤ c.length ∧ c.length ≤ min 12 items.length ∧ c.Nodup ∧
        ∀ x ∈ c, x ∈ items) ∧
      ws.length = cs.length ∧
      ∀ (i : Nat) (hi : i < ws.length), ws.get ⟨i, hi⟩ = 1 / ((i : Rat) + 1)) := by
  constructor
  · intro h4
    unfold build_clusters
    rw [if_pos h4]
  · intro cs ws r2 h4 h
    unfold build_clusters at h
    rw [if_neg (by omega)] at h
    dsimp only at h
    cases hb : buildClustersGo items items.length
        (max 3 (min 10 (items.length / 5))) r with
    | none => rw [hb] at h; exact absurd h (by simp)
    | some q =>
      rw [hb] at h
      obtain ⟨cs0, r3⟩ := q
      dsimp only at h
      injection h with h1
      injection h1 with h2 hr
      injection h2 with hcs hws
      subst hcs
      subst hws
      obtain ⟨hlen, hprops⟩ :=
        buildClustersGo_spec items items.length h4 rfl _ r cs0 r3 hb
      refine ⟨hlen, ?_, by simp, ?_⟩
      · intro c hc
        obtain ⟨a1, a2, a3, a4⟩ := hprops c hc
        exact ⟨a1, a2, a4 hnd, a3⟩
      · intro i hi
        simp only [List.get_eq_getElem, List.getElem_map, List.getElem_range]
        push_cast
        ring

theorem C9_clusters_witness :
    (["a", "b", "c", "d", "e"] : List String).Nodup ∧
      build_clusters ["a", "b", "c", "d", "e"] ⟨fun n => n, 0⟩
        = some (([["b", "d", "a"], ["a", "d", "c", "b"], ["a", "e", "b"]],
            (List.range 3).map (fun i => 1 / (((i + 1 : Nat)) : Rat))), ⟨fun n => n, 13⟩) ∧
      ([["b", "d", "a"], ["a", "d", "c", "b"], ["a", "e", "b"]] : List (List String)).length
        = max 3 (min 10 ((["a", "b", "c", "d", "e"] : List String).length / 5)) :=
  ⟨by decide, rfl,
   ((C9_clusters ["a", "b", "c", "d", "e"] ⟨fun n => n, 0⟩ (by decide)).2
     [["b", "d", "a"], ["a", "d", "c", "b"], ["a", "e", "b"]]
     ((List.range 3).map (fun i => 1 / (((i + 1 : Nat)) : Rat)))
     ⟨fun n => n, 13⟩ (by decide) rfl).1⟩

/-- C10 (implicit): on a duplicate-free universe of size ≥ 2 with clusters
drawn from it, a successful synthesis returns exactly the target length
chosen in step 1; that target never exceeds the universe size; and the
cluster-seed pick bound `max_pick` never exceeds the target, so seeding
never overshoots it before the fill loop grows the set to exactly the
target. -/
theorem C10_exact_length (fuel : Nat) (items : List String)
    (clusters : List (List String)) (cw : List Rat) (iw : List (Rat × Rat))
    (r r2 : Rng) (tx : List String)
    (hnd : items.Nodup) (h2 : 2 ≤ items.length)
    (hcl : ∀ c ∈ clusters, ∀ x ∈ c, x ∈ items)
    (h : generate_transaction fuel items clusters cw iw r = some (tx, r2)) :
    tx.length = (choose_length items.length r).1 ∧
      (choose_length items.length r).1 ≤ items.length ∧
      ∀ c ∈ clusters,
        max (if 2 ≤ c.length then 2 else 1)
            (min c.length (max 2 ((choose_length items.length r).1 / 2)))
          ≤ (choose_length items.length r).1 := by
  obtain ⟨hlb, hub⟩ := choose_length_bounds items.length r h2
  refine ⟨generate_length fuel items clusters cw iw r tx r2 hnd h2 hcl h, hub, ?_⟩
  intro c hc
  apply max_le
  · split <;> omega
  · calc min c.length (max 2 ((choose_length items.length r).1 / 2))
        ≤ max 2 ((choose_length items.length r).1 / 2) := min_le_right _ _
      _ ≤ (choose_length items.length r).1 :=
          max_le hlb (Nat.div_le_self _ 2)

theorem C10_exact_length_witness :
    generate_transaction 10 ["a", "b", "c", "d"] [["a", "b", "c"]] [1] [] ⟨fun n => n, 0⟩
        = some (["a", "b", "c", "d"], ⟨fun n => n, 8⟩) ∧
      (["a", "b", "c", "d"] : List String).length
        = (choose_length (["a", "b", "c", "d"] : List String).length ⟨fun n => n, 0⟩).1 :=
  ⟨rfl,
   (C10_exact_length 10 ["a", "b", "c", "d"] [["a", "b", "c"]] [1] []
     ⟨fun n => n, 0⟩ ⟨fun n => n, 8⟩ ["a", "b", "c", "d"] (by decide) (by decide)
     (by decide) rfl).1⟩
